import Mathlib

/-!
Verification of the minimap widget, `src/lib/features/minimap/Minimap.js`.

The geometric functions of the source operate on JS numbers; we embed them
over the rationals. The state touched by the handlers (the canvas viewbox
and zoom, the drag-state record, the mirrored elements layer) is passed
explicitly. Where the source compares numbers against the string constants
of `MIN_VIEWBOX_DIMENSIONS`, we embed the relevant fragment of the JS value
and coercion semantics (a `JSVal` type with string-to-number coercion and
NaN-aware comparison) so the comparison behaves exactly as in JS.
-/

namespace Minimap

/-- Axis-aligned box in diagram space, as used for bounding boxes and
viewboxes (records with fields x, y, width, height in the source). -/
structure Bounds where
  x : ℚ
  y : ℚ
  width : ℚ
  height : ℚ
deriving DecidableEq

/-- A point in diagram or device space. -/
structure Point where
  x : ℚ
  y : ℚ
deriving DecidableEq

/-- Source constant ZOOM_SMOOTHING = 300. -/
def ZOOM_SMOOTHING : ℚ := 300

/-- Source constant MIN_ZOOM = 4 (the most-zoomed-in bound). -/
def MIN_ZOOM : ℚ := 4

/-- Source constant MAX_ZOOM = 0.2 (the most-zoomed-out bound). -/
def MAX_ZOOM : ℚ := 0.2

/-- Fragment of the JS value universe needed by `Minimap.prototype._update`:
numbers, NaN, and strings (the `MIN_VIEWBOX_DIMENSIONS` entries are the
strings `"320px"` and `"180px"` in the source). IEEE infinities and
rounding are not modelled; all arithmetic here is exact. -/
inductive JSVal where
  | num : ℚ → JSVal
  | nan : JSVal
  | str : String → JSVal
deriving DecidableEq

/-- Numeric value of a list of decimal digit characters; `none` if any
character is not a decimal digit. The empty list yields `some 0`. -/
def digitsValCore (cs : List Char) : Option ℕ :=
  cs.foldl
    (fun acc c =>
      acc.bind (fun n => if c.isDigit then some (10 * n + (c.toNat - 48)) else none))
    (some 0)

/-- JS ToNumber applied to a string: the empty string is 0; otherwise an
optional sign followed by decimal digits with an optional fractional part.
Any other string (such as "320px") is NaN, returned as `none`. Whitespace
trimming, hex, exponent and Infinity forms are omitted; no such strings
occur in the source constants. -/
def jsStringToNumber (s : String) : Option ℚ :=
  match s.toList with
  | [] => some 0
  | cs =>
    let signAndRest : ℚ × List Char :=
      match cs with
      | '-' :: t => (-1, t)
      | '+' :: t => (1, t)
      | t => (1, t)
    let sign := signAndRest.1
    let rest := signAndRest.2
    match rest.span Char.isDigit with
    | (intPart, []) =>
      if intPart.isEmpty then none
      else (digitsValCore intPart).map (fun n => sign * (n : ℚ))
    | (intPart, '.' :: fracRest) =>
      match fracRest.span Char.isDigit with
      | (fracPart, []) =>
        if intPart.isEmpty && fracPart.isEmpty then none
        else
          match digitsValCore intPart, digitsValCore fracPart with
          | some i, some f =>
            some (sign * ((i : ℚ) + (f : ℚ) / (10 : ℚ) ^ fracPart.length))
          | _, _ => none
      | _ => none
    | _ => none

/-- JS ToNumber on a value, with `none` standing for NaN. -/
def jsToNum : JSVal → Option ℚ
  | .num q => some q
  | .nan => none
  | .str s => jsStringToNumber s

/-- The JS `<` operator on primitives: both operands are coerced to numbers
and any comparison involving NaN is false. -/
def jsLt (a b : JSVal) : Bool :=
  match jsToNum a, jsToNum b with
  | some x, some y => decide (x < y)
  | _, _ => false

/-- JS subtraction: both operands coerced to numbers, NaN propagates. -/
def jsSub (a b : JSVal) : JSVal :=
  match jsToNum a, jsToNum b with
  | some x, some y => .num (x - y)
  | _, _ => .nan

/-- JS division; NaN propagates. In `_update` the divisor is always the
literal 2, so the zero-divisor and infinity cases never arise; a zero
divisor is mapped to NaN here. -/
def jsDiv (a b : JSVal) : JSVal :=
  match jsToNum a, jsToNum b with
  | some x, some y => if y = 0 then .nan else .num (x / y)
  | _, _ => .nan

/-- Source constant: MINIMAP_DIMENSIONS.width is the string "320px". -/
def MINIMAP_DIMENSIONS_width : JSVal := .str "320px"

/-- Source constant: MINIMAP_DIMENSIONS.height is the string "180px". -/
def MINIMAP_DIMENSIONS_height : JSVal := .str "180px"

/-- Source constant: MIN_VIEWBOX_DIMENSIONS.width = MINIMAP_DIMENSIONS.width. -/
def MIN_VIEWBOX_DIMENSIONS_width : JSVal := MINIMAP_DIMENSIONS_width

/-- Source constant: MIN_VIEWBOX_DIMENSIONS.height = MINIMAP_DIMENSIONS.height. -/
def MIN_VIEWBOX_DIMENSIONS_height : JSVal := MINIMAP_DIMENSIONS_height

/-- The four values concatenated into the viewBox attribute of the minimap
svg by `Minimap.prototype._update`. -/
structure SvgViewBox where
  x : JSVal
  y : JSVal
  width : JSVal
  height : JSVal
deriving DecidableEq

/-- The viewBox computation of `Minimap.prototype._update`, lines 250-263 of
the source, translated with JS coercion semantics: `bBox` is the bounding
box of the default layer (a number-valued rect), and the comparisons and
arithmetic against `MIN_VIEWBOX_DIMENSIONS` follow `jsLt`, `jsSub`, `jsDiv`. -/
def updateViewBoxAttr (bBox : Bounds) : SvgViewBox :=
  if jsLt (.num bBox.width) MIN_VIEWBOX_DIMENSIONS_width
      && jsLt (.num bBox.height) MIN_VIEWBOX_DIMENSIONS_height then
    { x := jsSub (.num bBox.x)
        (jsDiv (jsSub MIN_VIEWBOX_DIMENSIONS_width (.num bBox.width)) (.num 2))
      y := jsSub (.num bBox.y)
        (jsDiv (jsSub MIN_VIEWBOX_DIMENSIONS_height (.num bBox.height)) (.num 2))
      width :=
        if jsLt (.num bBox.width) MIN_VIEWBOX_DIMENSIONS_width then
          MIN_VIEWBOX_DIMENSIONS_width
        else .num bBox.width
      height :=
        if jsLt (.num bBox.height) MIN_VIEWBOX_DIMENSIONS_height then
          MIN_VIEWBOX_DIMENSIONS_height
        else .num bBox.height }
  else
    { x := .num bBox.x, y := .num bBox.y
      width := .num bBox.width, height := .num bBox.height }

/-- The function `map` of the source (an affine remap of x from the input
range to the output range). -/
def map (x inMin inMax outMin outMax : ℚ) : ℚ :=
  let inRange := inMax - inMin
  let outRange := outMax - outMin
  (x - inMin) * outRange / inRange + outMin

/-- The function `fitAspectRatio` of the source: the value of the record it
returns. (In the source the new fields are written into the argument record
by assign and that same record is returned; the aliasing is captured by
`fitAspectRatioCall` below.) -/
def fitAspectRatio (bounds : Bounds) (targetAspectRatio : ℚ) : Bounds :=
  let aspectRatio := bounds.width / bounds.height
  if aspectRatio > targetAspectRatio then
    let height := bounds.width * (1 / targetAspectRatio)
    let y := bounds.y - ((height - bounds.height) / 2)
    { bounds with y := y, height := height }
  else if aspectRatio < targetAspectRatio then
    let width := bounds.height * targetAspectRatio
    let x := bounds.x - ((width - bounds.width) / 2)
    { bounds with x := x, width := width }
  else
    bounds

/-- A call to `fitAspectRatio` as observed by the caller: the pair of the
returned value and the state of the argument record after the call. Because
the source updates the argument in place with assign and returns the same
record, the two components are the same value. -/
def fitAspectRatioCall (bounds : Bounds) (targetAspectRatio : ℚ) :
    Bounds × Bounds :=
  (fitAspectRatio bounds targetAspectRatio, fitAspectRatio bounds targetAspectRatio)

/-- The function `mapClickToDiagramPoint` of the source. The DOM inputs
(event.offsetX, event.offsetY and the width and height of the bounding
client rect of the minimap svg) are passed as parameters; `bBox` is the
bounding box of the default layer, freshly obtained on each call, so the
in-place update performed by `fitAspectRatio` stays local to this call. -/
def mapClickToDiagramPoint (offsetX offsetY rectWidth rectHeight : ℚ)
    (bBox : Bounds) : Point :=
  let fitted := fitAspectRatio bBox (rectWidth / rectHeight)
  { x := map offsetX 0 rectWidth fitted.x (fitted.x + fitted.width)
    y := map offsetY 0 rectHeight fitted.y (fitted.y + fitted.height) }

/-- The function `setViewboxCenteredAroundPoint` of the source: it reads the
current canvas viewbox and requests a viewbox of the same width and height
centered on the given point. The returned value is the requested viewbox. -/
def setViewboxCenteredAroundPoint (point : Point) (currentViewbox : Bounds) :
    Bounds :=
  { x := point.x - currentViewbox.width / 2
    y := point.y - currentViewbox.height / 2
    width := currentViewbox.width
    height := currentViewbox.height }

/-- The part of the external canvas state the handlers read and write: its
viewbox and its zoom factor. Requesting a viewbox of unchanged width and
height leaves the zoom unchanged, so the two fields are independent here. -/
structure Canvas where
  viewbox : Bounds
  zoom : ℚ
deriving DecidableEq

/-- The two suppression flags of a DOM event object. -/
structure EventFlags where
  propagationStopped : Bool
  defaultPrevented : Bool
deriving DecidableEq

/-- Effect of event.stopPropagation on the event object. -/
def stopPropagation (e : EventFlags) : EventFlags :=
  { e with propagationStopped := true }

/-- Effect of event.preventDefault on the event object. Present for
reference; the wheel handler of the source never calls it. -/
def preventDefault (e : EventFlags) : EventFlags :=
  { e with defaultPrevented := true }

/-- The wheel handler of the source, lines 133-147: it calls
event.stopPropagation (and nothing else on the event object), recenters the
viewbox on the diagram point under the pointer, then sets the zoom to
Math.min(Math.max(zoom - event.deltaY / ZOOM_SMOOTHING, MAX_ZOOM), MIN_ZOOM)
where zoom is read from the canvas after the recenter (which preserves it,
since the viewbox dimensions are unchanged). Returns the event flags and the
canvas state after the handler. -/
def wheelHandler (flags : EventFlags)
    (offsetX offsetY rectWidth rectHeight deltaY : ℚ)
    (bBox : Bounds) (c : Canvas) : EventFlags × Canvas :=
  let flags2 := stopPropagation flags
  let diagramPoint := mapClickToDiagramPoint offsetX offsetY rectWidth rectHeight bBox
  let c2 : Canvas := { c with viewbox := setViewboxCenteredAroundPoint diagramPoint c.viewbox }
  let zoom := c2.zoom
  let c3 : Canvas :=
    { c2 with zoom := min (max (zoom - deltaY / ZOOM_SMOOTHING) MAX_ZOOM) MIN_ZOOM }
  (flags2, c3)

/-- The drag-state record `this._state`. The source initializes it with only
isDragging and cachedViewbox; the absent (undefined) initialDragPosition is
modelled as `none`, like the explicit null written by the mouseup handler. -/
structure DragState where
  isDragging : Bool
  initialDragPosition : Option Point
  cachedViewbox : Option Bounds
deriving DecidableEq

/-- The drag state created in the constructor (lines 66-69 of the source). -/
def initialState : DragState :=
  { isDragging := false, initialDragPosition := none, cachedViewbox := none }

/-- The mousedown handler on the viewport (lines 98-109): assigns
isDragging = true, initialDragPosition = the client coordinates of the
event, cachedViewbox = the current canvas viewbox (always an object, hence
some). -/
def mousedownHandler (st : DragState) (clientX clientY : ℚ)
    (currentViewbox : Bounds) : DragState :=
  { st with
    isDragging := true
    initialDragPosition := some { x := clientX, y := clientY }
    cachedViewbox := some currentViewbox }

/-- The document mousemove handler (lines 111-121): when dragging, it
recenters the canvas viewbox on the diagram point under the pointer via
`setViewboxCenteredAroundPoint`, which reads the CURRENT canvas viewbox; the
stored cachedViewbox is not read. The drag-state record is not modified. -/
def mousemoveHandler (st : DragState)
    (offsetX offsetY rectWidth rectHeight : ℚ)
    (bBox : Bounds) (c : Canvas) : Canvas :=
  if st.isDragging then
    { c with
      viewbox :=
        setViewboxCenteredAroundPoint
          (mapClickToDiagramPoint offsetX offsetY rectWidth rectHeight bBox)
          c.viewbox }
  else c

/-- The document mouseup handler (lines 123-131): assigns
isDragging = false, initialDragPosition = null, cachedViewbox = null. -/
def mouseupHandler (_st : DragState) : DragState :=
  { isDragging := false, initialDragPosition := none, cachedViewbox := none }

/-- The pointer events that mutate or leave the drag-state record: mousedown
on the viewport (with its client coordinates and the canvas viewbox read at
that moment), document mousemove, document mouseup. -/
inductive PointerEvent where
  | down (clientX clientY : ℚ) (currentViewbox : Bounds)
  | move
  | up
deriving DecidableEq

/-- Effect of one pointer event handler on the drag-state record. The
mousemove handler requests a canvas viewbox change but never writes the
drag state. -/
def pointerStep (st : DragState) : PointerEvent → DragState
  | .down cx cy vb => mousedownHandler st cx cy vb
  | .move => st
  | .up => mouseupHandler st

/-- Drag state after a sequence of pointer events from the initial state. -/
def runPointer (evs : List PointerEvent) : DragState :=
  List.foldl pointerStep initialState evs

/-- The drag-state invariant of the spec: initialDragPosition and
cachedViewbox are non-null iff isDragging. -/
def dragInv (st : DragState) : Prop :=
  (st.initialDragPosition ≠ none ∧ st.cachedViewbox ≠ none) ↔ st.isDragging = true

/-- State relevant to the mirror-set claim: the set of element ids currently
registered (with graphics) in the element registry of the diagram-model
authority, and the mirror layer of the minimap, modelled as the list of ids
of the clones in the elements group, in document order. -/
structure MState where
  registry : Finset String
  mirror : List String
deriving DecidableEq

/-- Initial state: empty registry, empty elements group. -/
def initMState : MState := { registry := ∅, mirror := [] }

/-- `Minimap.prototype.addElement` as it acts on the id list of the elements
group: the clone is tagged with the id of the element and appended. -/
def addElementId (mirror : List String) (id : String) : List String :=
  mirror ++ [id]

/-- `Minimap.prototype.removeElement` as it acts on the id list:
getElementById finds the first node carrying the id and it is removed;
silent no-op when absent. -/
def removeElementId (mirror : List String) (id : String) : List String :=
  mirror.erase id

/-- One iteration of the elements.changed handler loop (lines 165-175 of the
source): remove the element by id, then re-add it when the registry still
has graphics for it. -/
def changedStep (registry : Finset String) (m : List String) (id : String) :
    List String :=
  let m2 := removeElementId m id
  if id ∈ registry then addElementId m2 id else m2

/-- The notifications the widget subscribes to: shape.added or
connection.added with one element, and elements.changed with a batch of
element ids. Removal of an element reaches the widget through
elements.changed (the source subscribes to no separate removal event); a
removed element is listed in the batch and has no graphics any more. -/
inductive MNotif where
  | added (id : String)
  | changed (ids : List String)
deriving DecidableEq

/-- A notification together with the registry contents at the time the
handler runs (the authority mutates the registry before notifying). -/
structure MEvent where
  newRegistry : Finset String
  notif : MNotif
deriving DecidableEq

/-- The shape.added / connection.added handler (lines 150-159). -/
def handleAdded (st : MState) (id : String) : MState :=
  { st with mirror := addElementId st.mirror id }

/-- The elements.changed handler (lines 162-178). -/
def handleChanged (st : MState) (ids : List String) : MState :=
  { st with mirror := ids.foldl (changedStep st.registry) st.mirror }

/-- One event: the registry takes its new contents, then the corresponding
handler runs to completion. -/
def step (st : MState) (e : MEvent) : MState :=
  let st2 : MState := { st with registry := e.newRegistry }
  match e.notif with
  | .added id => handleAdded st2 id
  | .changed ids => handleChanged st2 ids

/-- State after a sequence of events. -/
def runTrace (st : MState) (evs : List MEvent) : MState :=
  List.foldl step st evs

/-- Well-formedness of one event against the previous registry contents, as
guaranteed by the diagram-model authority: an added notification is for a
fresh id that the registry just gained (the spec leaves a duplicate add
undefined), and an elements.changed batch lists every element whose registry
membership changed. -/
def wfEvent (old : Finset String) (e : MEvent) : Bool :=
  match e.notif with
  | .added id =>
    decide (id ∉ old) && decide (e.newRegistry = insert id old)
  | .changed ids =>
    decide (e.newRegistry \ old ⊆ ids.toFinset)
      && decide (old \ e.newRegistry ⊆ ids.toFinset)

/-- Well-formedness of a whole trace starting from given registry contents. -/
def wfTrace : Finset String → List MEvent → Bool
  | _, [] => true
  | reg, e :: evs => wfEvent reg e && wfTrace e.newRegistry evs

/-- The mirror invariant: the mirror ids are pairwise distinct and form
exactly the registered id set. -/
def mirrorInv (st : MState) : Prop :=
  st.mirror.Nodup ∧ st.mirror.toFinset = st.registry

end Minimap

section FitAspectRatioLemmas

/-- Branch lemma: when the aspect ratio exceeds the target, the height is
fitted. -/
theorem fitAspectRatio_branch_gt (b : Minimap.Bounds) (r : ℚ)
    (h : b.width / b.height > r) :
    Minimap.fitAspectRatio b r =
      { b with
        y := b.y - (b.width * (1 / r) - b.height) / 2
        height := b.width * (1 / r) } := by
  simp only [Minimap.fitAspectRatio]
  rw [if_pos h]

/-- Branch lemma: when the aspect ratio is below the target, the width is
fitted. -/
theorem fitAspectRatio_branch_lt (b : Minimap.Bounds) (r : ℚ)
    (h : b.width / b.height < r) :
    Minimap.fitAspectRatio b r =
      { b with
        x := b.x - (b.height * r - b.width) / 2
        width := b.height * r } := by
  simp only [Minimap.fitAspectRatio]
  rw [if_neg (not_lt.mpr h.le), if_pos h]

/-- Branch lemma: when the aspect ratio equals the target, the box is
returned unchanged. -/
theorem fitAspectRatio_branch_eq (b : Minimap.Bounds) (r : ℚ)
    (h : b.width / b.height = r) :
    Minimap.fitAspectRatio b r = b := by
  simp only [Minimap.fitAspectRatio]
  rw [if_neg (not_lt.mpr h.le), if_neg (not_lt.mpr h.ge)]

end FitAspectRatioLemmas

/-- C1: the claim says the minimum-size floor (MIN_VIEWBOX_DIMENSIONS) is
applied whenever the content bounding box is below it in both dimensions.
In the code this never happens: MIN_VIEWBOX_DIMENSIONS holds the strings
"320px" and "180px", a JS number-below-string comparison coerces the string
to NaN and is therefore always false, so the floor branch is dead and the
raw bounding box is used verbatim for every input. The theorem shows the
computed viewBox equals the raw box for all inputs, evaluates it at the
failing input (the 10 by 10 box at the origin, below the intended floor in
both dimensions), and shows it differs there from the expanded floor box
the claim requires. -/
theorem updateViewBoxAttr_floor_never_applied :
    (∀ bBox : Minimap.Bounds,
      Minimap.updateViewBoxAttr bBox =
        { x := .num bBox.x, y := .num bBox.y
          width := .num bBox.width, height := .num bBox.height })
    ∧ Minimap.updateViewBoxAttr ⟨0, 0, 10, 10⟩ =
        { x := .num 0, y := .num 0, width := .num 10, height := .num 10 }
    ∧ Minimap.updateViewBoxAttr ⟨0, 0, 10, 10⟩ ≠
        { x := .num (-155), y := .num (-85), width := .num 320, height := .num 180 } := by
  have h10 : Minimap.updateViewBoxAttr ⟨0, 0, 10, 10⟩ =
      { x := .num 0, y := .num 0, width := .num 10, height := .num 10 } := rfl
  refine ⟨fun bBox => rfl, h10, ?_⟩
  rw [h10]
  intro h
  have hx : Minimap.JSVal.num 0 = Minimap.JSVal.num (-155) :=
    congrArg Minimap.SvgViewBox.x h
  have hq : (0 : ℚ) = -155 := Minimap.JSVal.num.inj hx
  norm_num at hq

/-- C2: for bounds of positive width and height and a positive target ratio,
fitAspectRatio returns a box whose width-to-height ratio equals the target
and whose center equals the center of the input; above the target the height
becomes width divided by the ratio with y shifted by half the growth, below
it the width becomes height times the ratio by the mirror formula, and at
the target the box is returned unchanged. -/
theorem fitAspectRatio_ratio_center (b : Minimap.Bounds) (r : ℚ)
    (hw : 0 < b.width) (hh : 0 < b.height) (hr : 0 < r) :
    (Minimap.fitAspectRatio b r).width / (Minimap.fitAspectRatio b r).height = r
    ∧ (Minimap.fitAspectRatio b r).x + (Minimap.fitAspectRatio b r).width / 2
        = b.x + b.width / 2
    ∧ (Minimap.fitAspectRatio b r).y + (Minimap.fitAspectRatio b r).height / 2
        = b.y + b.height / 2
    ∧ (b.width / b.height > r →
        Minimap.fitAspectRatio b r =
          ⟨b.x, b.y - (b.width / r - b.height) / 2, b.width, b.width / r⟩)
    ∧ (b.width / b.height < r →
        Minimap.fitAspectRatio b r =
          ⟨b.x - (b.height * r - b.width) / 2, b.y, b.height * r, b.height⟩)
    ∧ (b.width / b.height = r → Minimap.fitAspectRatio b r = b) := by
  have hw0 : b.width ≠ 0 := ne_of_gt hw
  have hh0 : b.height ≠ 0 := ne_of_gt hh
  have hr0 : r ≠ 0 := ne_of_gt hr
  rcases lt_trichotomy (b.width / b.height) r with h | h | h
  · have hfit := fitAspectRatio_branch_lt b r h
    rw [hfit]
    refine ⟨?_, ?_, ?_, ?_, ?_, ?_⟩
    · exact mul_div_cancel_left₀ r hh0
    · dsimp only
      ring
    · dsimp only
    · intro hc
      exact absurd hc (not_lt.mpr h.le)
    · intro _
      rfl
    · intro hc
      exact absurd hc (ne_of_lt h)
  · have hfit := fitAspectRatio_branch_eq b r h
    rw [hfit]
    refine ⟨h, rfl, rfl, ?_, ?_, fun _ => rfl⟩
    · intro hc
      exact absurd hc (not_lt.mpr h.le)
    · intro hc
      exact absurd hc (not_lt.mpr h.ge)
  · have hfit := fitAspectRatio_branch_gt b r h
    rw [hfit]
    refine ⟨?_, ?_, ?_, ?_, ?_, ?_⟩
    · dsimp only
      rw [mul_one_div, div_div_eq_mul_div]
      exact mul_div_cancel_left₀ r hw0
    · dsimp only
    · dsimp only
      ring
    · intro _
      rw [mul_one_div]
    · intro hc
      exact absurd hc (not_lt.mpr h.le)
    · intro hc
      exact absurd hc.symm (ne_of_lt h)

/-- Witness for C2 at the concrete box 0,0,100,100 and target ratio 2: the
fitted box has ratio 2. -/
theorem fitAspectRatio_ratio_center_witness :
    (0 : ℚ) < 100 ∧ (0 : ℚ) < 2
    ∧ (Minimap.fitAspectRatio ⟨0, 0, 100, 100⟩ 2).width
        / (Minimap.fitAspectRatio ⟨0, 0, 100, 100⟩ 2).height = 2 :=
  ⟨by norm_num, by norm_num,
    (fitAspectRatio_ratio_center ⟨0, 0, 100, 100⟩ 2
      (by norm_num) (by norm_num) (by norm_num)).1⟩

/-- C3: the viewbox requested by setViewboxCenteredAroundPoint has its
corner at the point minus half the current dimensions, its center at the
point, and the width and height of the pre-call viewbox, preserving zoom. -/
theorem setViewboxCenteredAroundPoint_ok (p : Minimap.Point) (v : Minimap.Bounds) :
    (Minimap.setViewboxCenteredAroundPoint p v).x = p.x - v.width / 2
    ∧ (Minimap.setViewboxCenteredAroundPoint p v).y = p.y - v.height / 2
    ∧ (Minimap.setViewboxCenteredAroundPoint p v).x
        + (Minimap.setViewboxCenteredAroundPoint p v).width / 2 = p.x
    ∧ (Minimap.setViewboxCenteredAroundPoint p v).y
        + (Minimap.setViewboxCenteredAroundPoint p v).height / 2 = p.y
    ∧ (Minimap.setViewboxCenteredAroundPoint p v).width = v.width
    ∧ (Minimap.setViewboxCenteredAroundPoint p v).height = v.height := by
  refine ⟨rfl, rfl, ?_, ?_, rfl, rfl⟩
  · dsimp only [Minimap.setViewboxCenteredAroundPoint]
    ring
  · dsimp only [Minimap.setViewboxCenteredAroundPoint]
    ring

/-- C4: the zoom the wheel handler requests equals the current zoom minus
deltaY divided by ZOOM_SMOOTHING, clamped to the closed interval from
MAX_ZOOM = 0.2 to MIN_ZOOM = 4; for deltaY = -300 from a legal zoom the
result is the current zoom plus one, capped at the MIN_ZOOM = 4 ceiling. -/
theorem wheelHandler_zoom_clamped (flags : Minimap.EventFlags)
    (ox oy rw rh dy : ℚ) (bBox : Minimap.Bounds) (c : Minimap.Canvas) :
    ((Minimap.wheelHandler flags ox oy rw rh dy bBox c).2).zoom
      = min (max (c.zoom - dy / Minimap.ZOOM_SMOOTHING) Minimap.MAX_ZOOM) Minimap.MIN_ZOOM
    ∧ Minimap.MAX_ZOOM ≤ ((Minimap.wheelHandler flags ox oy rw rh dy bBox c).2).zoom
    ∧ ((Minimap.wheelHandler flags ox oy rw rh dy bBox c).2).zoom ≤ Minimap.MIN_ZOOM
    ∧ (dy = -300 → Minimap.MAX_ZOOM ≤ c.zoom →
        ((Minimap.wheelHandler flags ox oy rw rh dy bBox c).2).zoom
          = min (c.zoom + 1) Minimap.MIN_ZOOM) := by
  have hz : ((Minimap.wheelHandler flags ox oy rw rh dy bBox c).2).zoom
      = min (max (c.zoom - dy / Minimap.ZOOM_SMOOTHING) Minimap.MAX_ZOOM) Minimap.MIN_ZOOM := rfl
  refine ⟨hz, ?_, ?_, ?_⟩
  · rw [hz]
    exact le_min (le_max_right _ _)
      (by norm_num [Minimap.MAX_ZOOM, Minimap.MIN_ZOOM])
  · rw [hz]
    exact min_le_right _ _
  · intro hdy hzoom
    rw [hz, hdy]
    have h1 : c.zoom - (-300) / Minimap.ZOOM_SMOOTHING = c.zoom + 1 := by
      norm_num [Minimap.ZOOM_SMOOTHING]
    rw [h1, max_eq_left ?_]
    have : (0 : ℚ) < 1 := by norm_num
    have hM : Minimap.MAX_ZOOM ≤ c.zoom + 1 := by linarith
    exact hM

/-- Witness for C4: from zoom 2, a wheel with deltaY = -300 yields zoom 3. -/
theorem wheelHandler_zoom_clamped_witness :
    Minimap.MAX_ZOOM ≤ (2 : ℚ)
    ∧ ((Minimap.wheelHandler ⟨false, false⟩ 0 0 320 180 (-300)
          ⟨0, 0, 320, 180⟩ ⟨⟨0, 0, 100, 100⟩, 2⟩).2).zoom
        = min ((2 : ℚ) + 1) Minimap.MIN_ZOOM :=
  ⟨by norm_num [Minimap.MAX_ZOOM],
    (wheelHandler_zoom_clamped ⟨false, false⟩ 0 0 320 180 (-300)
      ⟨0, 0, 320, 180⟩ ⟨⟨0, 0, 100, 100⟩, 2⟩).2.2.2 rfl
      (by norm_num [Minimap.MAX_ZOOM])⟩

/-- C9: on a non-degenerate input range and increasing output range, the
affine remap stays inside the output range and maps the endpoints exactly. -/
theorem map_linear_ok (x inMin inMax outMin outMax : ℚ)
    (hin : inMin < inMax) (hout : outMin < outMax)
    (hx1 : inMin ≤ x) (hx2 : x ≤ inMax) :
    outMin ≤ Minimap.map x inMin inMax outMin outMax
    ∧ Minimap.map x inMin inMax outMin outMax ≤ outMax
    ∧ Minimap.map inMin inMin inMax outMin outMax = outMin
    ∧ Minimap.map inMax inMin inMax outMin outMax = outMax := by
  have hi : (0 : ℚ) < inMax - inMin := by linarith
  have ho : (0 : ℚ) ≤ outMax - outMin := by linarith
  refine ⟨?_, ?_, ?_, ?_⟩
  · dsimp only [Minimap.map]
    have hnn : 0 ≤ (x - inMin) * (outMax - outMin) / (inMax - inMin) :=
      div_nonneg (mul_nonneg (by linarith) ho) (le_of_lt hi)
    linarith
  · dsimp only [Minimap.map]
    have hub : (x - inMin) * (outMax - outMin) / (inMax - inMin) ≤ outMax - outMin := by
      rw [div_le_iff₀ hi]
      nlinarith
    linarith
  · dsimp only [Minimap.map]
    simp [sub_self]
  · dsimp only [Minimap.map]
    rw [mul_comm, mul_div_assoc, div_self (ne_of_gt hi), mul_one]
    ring

/-- C5 counterexample: in a drag whose pointer-down snapshot cachedViewbox
is the 100 by 100 box, after the zoom changed so that the live canvas
viewbox is 200 by 200, a pointer move requests the 200 by 200 rectangle
centered under the pointer, not the snapshotted 100 by 100 one: the stored
cachedViewbox is never read by the move handler. -/
theorem mousemove_cached_snapshot_counterexample :
    (Minimap.mousemoveHandler
        ⟨true, some ⟨0, 0⟩, some ⟨0, 0, 100, 100⟩⟩
        160 90 320 180 ⟨0, 0, 320, 180⟩
        ⟨⟨0, 0, 200, 200⟩, 1⟩).viewbox = ⟨60, -10, 200, 200⟩
    ∧ (⟨60, -10, 200, 200⟩ : Minimap.Bounds).width ≠ (100 : ℚ)
    ∧ (⟨60, -10, 200, 200⟩ : Minimap.Bounds).height ≠ (100 : ℚ) := by
  refine ⟨?_, by norm_num, by norm_num⟩
  norm_num [Minimap.mousemoveHandler, Minimap.mapClickToDiagramPoint,
    Minimap.fitAspectRatio, Minimap.map, Minimap.setViewboxCenteredAroundPoint]

/-- C5 amended: during a drag, every pointer-move requests a viewbox whose
width and height are those of the viewbox the canvas has at the time of the
move (so the zoom at move time is preserved), centered on the diagram point
under the pointer; the cachedViewbox snapshotted at pointer-down is stored
but not consulted. -/
theorem mousemove_centers_current_viewbox (st : Minimap.DragState)
    (ox oy rw rh : ℚ) (bBox : Minimap.Bounds) (c : Minimap.Canvas)
    (h : st.isDragging = true) :
    (Minimap.mousemoveHandler st ox oy rw rh bBox c).viewbox.width = c.viewbox.width
    ∧ (Minimap.mousemoveHandler st ox oy rw rh bBox c).viewbox.height = c.viewbox.height
    ∧ (Minimap.mousemoveHandler st ox oy rw rh bBox c).viewbox.x
        + c.viewbox.width / 2
        = (Minimap.mapClickToDiagramPoint ox oy rw rh bBox).x
    ∧ (Minimap.mousemoveHandler st ox oy rw rh bBox c).viewbox.y
        + c.viewbox.height / 2
        = (Minimap.mapClickToDiagramPoint ox oy rw rh bBox).y := by
  simp only [Minimap.mousemoveHandler, h, if_true]
  refine ⟨rfl, rfl, ?_, ?_⟩
  · dsimp only [Minimap.setViewboxCenteredAroundPoint]
    ring
  · dsimp only [Minimap.setViewboxCenteredAroundPoint]
    ring

/-- Witness for the amended C5 at a concrete dragging state. -/
theorem mousemove_centers_current_viewbox_witness :
    (⟨true, some ⟨0, 0⟩, some ⟨0, 0, 100, 100⟩⟩ : Minimap.DragState).isDragging = true
    ∧ (Minimap.mousemoveHandler ⟨true, some ⟨0, 0⟩, some ⟨0, 0, 100, 100⟩⟩
          12 34 320 180 ⟨0, 0, 320, 180⟩ ⟨⟨0, 0, 200, 200⟩, 1⟩).viewbox.width
        = (⟨⟨0, 0, 200, 200⟩, 1⟩ : Minimap.Canvas).viewbox.width :=
  ⟨rfl,
    (mousemove_centers_current_viewbox ⟨true, some ⟨0, 0⟩, some ⟨0, 0, 100, 100⟩⟩
      12 34 320 180 ⟨0, 0, 320, 180⟩ ⟨⟨0, 0, 200, 200⟩, 1⟩ rfl).1⟩

/-- C6 counterexample: on a wheel event whose flags start clear, the handler
leaves defaultPrevented false (the source calls only stopPropagation, never
preventDefault), so the default scroll behavior of the page is not
suppressed even though propagation is. -/
theorem wheelHandler_default_not_prevented_counterexample :
    ((Minimap.wheelHandler ⟨false, false⟩ 0 0 320 180 0 ⟨0, 0, 320, 180⟩
        ⟨⟨0, 0, 100, 100⟩, 1⟩).1).propagationStopped = true
    ∧ ((Minimap.wheelHandler ⟨false, false⟩ 0 0 320 180 0 ⟨0, 0, 320, 180⟩
        ⟨⟨0, 0, 100, 100⟩, 1⟩).1).defaultPrevented = false :=
  ⟨rfl, rfl⟩

/-- C6 amended: for every wheel event, the handler stops propagation but
does not prevent the default behavior; the defaultPrevented flag is left
exactly as it came in. -/
theorem wheelHandler_stops_propagation_only (flags : Minimap.EventFlags)
    (ox oy rw rh dy : ℚ) (bBox : Minimap.Bounds) (c : Minimap.Canvas) :
    ((Minimap.wheelHandler flags ox oy rw rh dy bBox c).1).propagationStopped = true
    ∧ ((Minimap.wheelHandler flags ox oy rw rh dy bBox c).1).defaultPrevented
        = flags.defaultPrevented :=
  ⟨rfl, rfl⟩

/-- C10 counterexample: calling fitAspectRatio on the 100 by 100 box with
target ratio 2 leaves the caller record changed (width becomes 200), because
assign writes the fitted fields into the argument record. -/
theorem fitAspectRatioCall_mutates_counterexample :
    (Minimap.fitAspectRatioCall ⟨0, 0, 100, 100⟩ 2).2 ≠ ⟨0, 0, 100, 100⟩ := by
  norm_num [Minimap.fitAspectRatioCall, Minimap.fitAspectRatio]

/-- C10 amended: fitAspectRatio is not pure with respect to its argument:
the record the caller passed aliases the returned record after the call, and
it is left with its pre-call field values exactly when the aspect ratio of
the bounds already equals the target ratio. -/
theorem fitAspectRatioCall_aliasing (b : Minimap.Bounds) (r : ℚ)
    (hh : 0 < b.height) (hr : 0 < r) :
    (Minimap.fitAspectRatioCall b r).2 = (Minimap.fitAspectRatioCall b r).1
    ∧ ((Minimap.fitAspectRatioCall b r).2 = b ↔ b.width / b.height = r) := by
  have hh0 : b.height ≠ 0 := ne_of_gt hh
  have hr0 : r ≠ 0 := ne_of_gt hr
  refine ⟨rfl, ?_, ?_⟩
  · intro he
    have he2 : Minimap.fitAspectRatio b r = b := he
    rcases lt_trichotomy (b.width / b.height) r with h | h | h
    · exfalso
      rw [fitAspectRatio_branch_lt b r h] at he2
      have hwidth : b.height * r = b.width := congrArg Minimap.Bounds.width he2
      have heq : b.width / b.height = r := by
        rw [← hwidth]
        exact mul_div_cancel_left₀ r hh0
      exact (ne_of_lt h) heq
    · exact h
    · exfalso
      rw [fitAspectRatio_branch_gt b r h] at he2
      have hheight : b.width * (1 / r) = b.height := congrArg Minimap.Bounds.height he2
      have hwidth : b.width = b.height * r := by
        field_simp at hheight
        linarith
      have heq : b.width / b.height = r := by
        rw [hwidth]
        exact mul_div_cancel_left₀ r hh0
      exact (ne_of_gt h) heq
  · intro h
    exact fitAspectRatio_branch_eq b r h

/-- Witness for the amended C10 at the square box and target ratio 1. -/
theorem fitAspectRatioCall_aliasing_witness :
    (0 : ℚ) < 100 ∧ (0 : ℚ) < 1
    ∧ ((Minimap.fitAspectRatioCall ⟨0, 0, 100, 100⟩ 1).2 = ⟨0, 0, 100, 100⟩
        ↔ (100 : ℚ) / 100 = 1) :=
  ⟨by norm_num, by norm_num,
    (fitAspectRatioCall_aliasing ⟨0, 0, 100, 100⟩ 1 (by norm_num) (by norm_num)).2⟩

/-- Witness for C9 at the midpoint of 0..2 mapped to 10..20. -/
theorem map_linear_ok_witness :
    (0 : ℚ) < 2 ∧ (10 : ℚ) < 20
    ∧ (10 : ℚ) ≤ Minimap.map 1 0 2 10 20
    ∧ Minimap.map 1 0 2 10 20 ≤ 20 :=
  ⟨by norm_num, by norm_num,
    (map_linear_ok 1 0 2 10 20 (by norm_num) (by norm_num) (by norm_num) (by norm_num)).1,
    (map_linear_ok 1 0 2 10 20 (by norm_num) (by norm_num) (by norm_num) (by norm_num)).2.1⟩

section DragLifecycleLemmas

/-- The drag-state invariant is preserved by each pointer event handler. -/
theorem dragInv_step (st : Minimap.DragState) (e : Minimap.PointerEvent)
    (h : Minimap.dragInv st) : Minimap.dragInv (Minimap.pointerStep st e) := by
  cases e with
  | down cx cy vb =>
    simp [Minimap.pointerStep, Minimap.mousedownHandler, Minimap.dragInv]
  | move => exact h
  | up =>
    simp [Minimap.pointerStep, Minimap.mouseupHandler, Minimap.dragInv]

/-- The drag-state invariant is preserved by any event sequence. -/
theorem dragInv_foldl (evs : List Minimap.PointerEvent) :
    ∀ st : Minimap.DragState, Minimap.dragInv st →
      Minimap.dragInv (List.foldl Minimap.pointerStep st evs) := by
  induction evs with
  | nil => exact fun st h => h
  | cons e evs ih => exact fun st h => ih _ (dragInv_step st e h)

/-- Pointer moves leave the drag-state record untouched. -/
theorem foldl_moves_id : ∀ (moves : List Minimap.PointerEvent),
    (∀ e ∈ moves, e = Minimap.PointerEvent.move) →
    ∀ st : Minimap.DragState, List.foldl Minimap.pointerStep st moves = st := by
  intro moves
  induction moves with
  | nil => intro _ st; rfl
  | cons e ms ih =>
    intro hm st
    have he := hm e (List.mem_cons_self e ms)
    rw [List.foldl_cons, he]
    exact ih (fun x hx => hm x (List.mem_cons_of_mem e hx)) st

end DragLifecycleLemmas

/-- C8: the drag-state record satisfies the non-null-iff-dragging invariant
in the initial state and after every pointer event handler completes;
pointer-down sets isDragging with the pointer position and the snapshotted
viewbox stored, and pointer-up restores the cleared record no matter how
many pointer moves happened in between. -/
theorem dragState_lifecycle (evs : List Minimap.PointerEvent)
    (cx cy : ℚ) (vb : Minimap.Bounds) (moves : List Minimap.PointerEvent)
    (hm : ∀ e ∈ moves, e = Minimap.PointerEvent.move) :
    Minimap.dragInv Minimap.initialState
    ∧ Minimap.dragInv (Minimap.runPointer evs)
    ∧ (Minimap.pointerStep (Minimap.runPointer evs) (.down cx cy vb)).isDragging = true
    ∧ (Minimap.pointerStep (Minimap.runPointer evs) (.down cx cy vb)).cachedViewbox = some vb
    ∧ (Minimap.pointerStep (Minimap.runPointer evs) (.down cx cy vb)).initialDragPosition
        = some ⟨cx, cy⟩
    ∧ List.foldl Minimap.pointerStep
        (Minimap.pointerStep (Minimap.runPointer evs) (.down cx cy vb))
        (moves ++ [Minimap.PointerEvent.up])
      = Minimap.initialState := by
  have hinit : Minimap.dragInv Minimap.initialState := by
    simp [Minimap.dragInv, Minimap.initialState]
  refine ⟨hinit, dragInv_foldl evs Minimap.initialState hinit, rfl, rfl, rfl, ?_⟩
  rw [List.foldl_append, foldl_moves_id moves hm]
  rfl

/-- Witness for C8: down, one move, up, starting from the freshly constructed
widget, ends in the cleared drag state. -/
theorem dragState_lifecycle_witness :
    (∀ e ∈ [Minimap.PointerEvent.move], e = Minimap.PointerEvent.move)
    ∧ List.foldl Minimap.pointerStep
        (Minimap.pointerStep (Minimap.runPointer []) (.down 5 7 ⟨0, 0, 50, 50⟩))
        ([Minimap.PointerEvent.move] ++ [Minimap.PointerEvent.up])
      = Minimap.initialState :=
  ⟨by simp,
    (dragState_lifecycle [] 5 7 ⟨0, 0, 50, 50⟩ [Minimap.PointerEvent.move]
      (by simp)).2.2.2.2.2⟩

section MirrorLemmas

/-- One changed-loop iteration, with its local binding inlined. -/
theorem changedStep_eq (R : Finset String) (m : List String) (id : String) :
    Minimap.changedStep R m id =
      if id ∈ R then m.erase id ++ [id] else m.erase id := rfl

/-- One changed-loop iteration keeps the mirror ids pairwise distinct. -/
theorem changedStep_nodup (R : Finset String) (m : List String) (id : String)
    (h : m.Nodup) : (Minimap.changedStep R m id).Nodup := by
  rw [changedStep_eq]
  by_cases hid : id ∈ R
  · rw [if_pos hid]
    refine List.Nodup.append (h.erase id) (List.nodup_singleton id) ?_
    intro a ha hb
    rw [List.mem_singleton] at hb
    subst hb
    exact ((List.Nodup.mem_erase_iff h).mp ha).1 rfl
  · rw [if_neg hid]
    exact h.erase id

/-- Membership after one changed-loop iteration: the processed id is present
iff the registry has it, every other id is untouched. -/
theorem changedStep_mem (R : Finset String) (m : List String) (id x : String)
    (h : m.Nodup) :
    x ∈ Minimap.changedStep R m id ↔ ((x = id ∧ id ∈ R) ∨ (x ≠ id ∧ x ∈ m)) := by
  rw [changedStep_eq]
  by_cases hid : id ∈ R
  · rw [if_pos hid]
    rw [List.mem_append, List.mem_singleton, List.Nodup.mem_erase_iff h]
    rcases eq_or_ne x id with rfl | hxid
    · simp [hid]
    · simp [hxid]
  · rw [if_neg hid]
    rw [List.Nodup.mem_erase_iff h]
    rcases eq_or_ne x id with rfl | hxid
    · simp [hid]
    · simp [hxid]

/-- The whole changed-loop: afterwards an id is present iff it is a listed id
still in the registry, or an unlisted id that was present before; pairwise
distinctness is preserved. -/
theorem changedFold_spec (R : Finset String) :
    ∀ (ids : List String) (m : List String), m.Nodup →
      (List.foldl (Minimap.changedStep R) m ids).Nodup
      ∧ ∀ x, (x ∈ List.foldl (Minimap.changedStep R) m ids
          ↔ ((x ∈ ids ∧ x ∈ R) ∨ (x ∉ ids ∧ x ∈ m))) := by
  intro ids
  induction ids with
  | nil =>
    intro m hm
    exact ⟨hm, fun x => by simp⟩
  | cons id ids ih =>
    intro m hm
    have hstep := changedStep_nodup R m id hm
    obtain ⟨hnd, hmem⟩ := ih (Minimap.changedStep R m id) hstep
    rw [List.foldl_cons]
    refine ⟨hnd, fun x => ?_⟩
    rw [hmem x, changedStep_mem R m id x hm]
    rcases eq_or_ne x id with rfl | hxid
    · by_cases hxi : x ∈ ids <;> simp [hxi, List.mem_cons]
    · by_cases hxi : x ∈ ids <;> simp [hxi, hxid, List.mem_cons]

/-- One well-formed event preserves the mirror invariant. -/
theorem mirrorInv_step (st : Minimap.MState) (e : Minimap.MEvent)
    (hw : Minimap.wfEvent st.registry e = true) (hinv : Minimap.mirrorInv st) :
    Minimap.mirrorInv (Minimap.step st e) := by
  obtain ⟨hnd, hset⟩ := hinv
  rcases e with ⟨newReg, notif⟩
  cases notif with
  | added id =>
    simp only [Minimap.wfEvent, Bool.and_eq_true, decide_eq_true_eq] at hw
    obtain ⟨hfresh, hreg⟩ := hw
    constructor
    · show (st.mirror ++ [id]).Nodup
      refine List.Nodup.append hnd (List.nodup_singleton id) ?_
      intro a ha hb
      rw [List.mem_singleton] at hb
      subst hb
      exact hfresh (hset ▸ List.mem_toFinset.mpr ha)
    · show (st.mirror ++ [id]).toFinset = newReg
      rw [hreg, ← hset]
      apply Finset.ext
      intro y
      simp [List.toFinset_append, or_comm]
  | changed ids =>
    simp only [Minimap.wfEvent, Bool.and_eq_true, decide_eq_true_eq] at hw
    obtain ⟨hadd, hrem⟩ := hw
    obtain ⟨hnd2, hmem⟩ := changedFold_spec newReg ids st.mirror hnd
    constructor
    · exact hnd2
    · show (List.foldl (Minimap.changedStep newReg) st.mirror ids).toFinset = newReg
      apply Finset.ext
      intro x
      rw [List.mem_toFinset, hmem x]
      constructor
      · rintro (⟨_, hxR⟩ | ⟨hxi, hxm⟩)
        · exact hxR
        · by_contra hxn
          have hxold : x ∈ st.registry := hset ▸ List.mem_toFinset.mpr hxm
          have hsd : x ∈ st.registry \ newReg := Finset.mem_sdiff.mpr ⟨hxold, hxn⟩
          have := hrem hsd
          rw [List.mem_toFinset] at this
          exact hxi this
      · intro hxR
        by_cases hxi : x ∈ ids
        · exact Or.inl ⟨hxi, hxR⟩
        · refine Or.inr ⟨hxi, ?_⟩
          by_cases hxold : x ∈ st.registry
          · exact List.mem_toFinset.mp (hset ▸ hxold)
          · exfalso
            have hsd : x ∈ newReg \ st.registry := Finset.mem_sdiff.mpr ⟨hxR, hxold⟩
            have := hadd hsd
            rw [List.mem_toFinset] at this
            exact hxi this

/-- Each step leaves the registry at the contents carried by the event. -/
theorem step_registry (st : Minimap.MState) (e : Minimap.MEvent) :
    (Minimap.step st e).registry = e.newRegistry := by
  rcases e with ⟨newReg, notif⟩
  cases notif <;> rfl

/-- A well-formed trace preserves the mirror invariant. -/
theorem mirrorInv_runTrace : ∀ (evs : List Minimap.MEvent) (st : Minimap.MState),
    Minimap.mirrorInv st → Minimap.wfTrace st.registry evs = true →
    Minimap.mirrorInv (Minimap.runTrace st evs) := by
  intro evs
  induction evs with
  | nil => exact fun st hinv _ => hinv
  | cons e evs ih =>
    intro st hinv hw
    simp only [Minimap.wfTrace, Bool.and_eq_true] at hw
    obtain ⟨hw1, hw2⟩ := hw
    exact ih (Minimap.step st e) (mirrorInv_step st e hw1 hinv)
      (by rw [step_registry]; exact hw2)

end MirrorLemmas

/-- C7: after any well-formed sequence of added and elements.changed
notifications run to completion from the freshly constructed widget (removal
of an element reaches the widget through elements.changed, the only removal
channel the source subscribes to), the set of ids in the mirrored elements
layer equals the set of element ids registered with the diagram-model
authority: no orphans and no missing entries. -/
theorem mirror_ids_equal_registry (evs : List Minimap.MEvent)
    (h : Minimap.wfTrace ∅ evs = true) :
    (Minimap.runTrace Minimap.initMState evs).mirror.toFinset
      = (Minimap.runTrace Minimap.initMState evs).registry := by
  have hinit : Minimap.mirrorInv Minimap.initMState :=
    ⟨List.nodup_nil, by simp [Minimap.initMState]⟩
  exact (mirrorInv_runTrace evs Minimap.initMState hinit h).2

/-- Witness for C7: add two elements, then a changed batch that removes the
first; the mirror ids and the registry agree afterwards. -/
theorem mirror_ids_equal_registry_witness :
    Minimap.wfTrace ∅
        [⟨{"a"}, .added "a"⟩, ⟨{"a", "b"}, .added "b"⟩, ⟨{"b"}, .changed ["a"]⟩] = true
    ∧ (Minimap.runTrace Minimap.initMState
          [⟨{"a"}, .added "a"⟩, ⟨{"a", "b"}, .added "b"⟩, ⟨{"b"}, .changed ["a"]⟩]).mirror.toFinset
      = (Minimap.runTrace Minimap.initMState
          [⟨{"a"}, .added "a"⟩, ⟨{"a", "b"}, .added "b"⟩, ⟨{"b"}, .changed ["a"]⟩]).registry :=
  ⟨by decide, mirror_ids_equal_registry _ (by decide)⟩
